import Mathlib

/-!
Verification development for the party-mode orchestration engine
(session store, turn-ordering strategies, moderator facilitator,
mention parser, driver round loop).

The definitions below are a shallow embedding of the TypeScript source:
pure functions become Lean functions, the in-memory session map becomes an
association list, `Date.now()` / `randomUUID()` become explicit `now` /
`messageId` parameters, and the asynchronous completion-provider call
becomes an explicit outcome parameter.  JS `null`/`undefined` distinctions
that matter (partial configs, optional fields, string truthiness) are
modelled with `Option` and explicit emptiness checks.
-/

/-- Agent categories from `src/agents/registry.ts` (`enum AgentCategory`). -/
inductive AgentCategory
  | core
  | personal
  | creative
  | gamedev
  | bmad
  | specialized
deriving DecidableEq

/-- Agent metadata record from `src/agents/registry.ts` (`interface AgentDefinition`). -/
structure AgentDefinition where
  id : String
  name : String
  category : AgentCategory
  personaFile : String
  description : String
  icon : String
  capabilities : List String
deriving DecidableEq

/-- The ten core-team agents (`CORE_AGENTS` in `src/agents/registry.ts`). -/
def CORE_AGENTS : List AgentDefinition :=
  [ { id := "aurora-forester", name := "Aurora Forester", category := AgentCategory.core,
      personaFile := "core/aurora-forester.md",
      description := "A1 - Primary Assistant and Team Leader. Orchestrates the agent team and makes autonomous decisions.",
      icon := "🌲",
      capabilities := ["team-orchestration", "strategic-planning", "escalation-management", "context-maintenance"] },
    { id := "winston", name := "Winston", category := AgentCategory.core,
      personaFile := "core/winston.md",
      description := "Chief Strategy Officer. Seasoned executive for strategic planning and vision-setting.",
      icon := "🏛️",
      capabilities := ["strategic-planning", "vision-development", "risk-assessment", "competitive-analysis"] },
    { id := "john", name := "John", category := AgentCategory.core,
      personaFile := "core/john.md",
      description := "Project Manager. Expert in agile methodologies, sprint planning, and team coordination.",
      icon := "📋",
      capabilities := ["project-management", "sprint-planning", "agile-methodologies", "team-coordination"] },
    { id := "amelia", name := "Amelia", category := AgentCategory.core,
      personaFile := "core/amelia.md",
      description := "Product Designer. Creates intuitive user experiences and beautiful interfaces.",
      icon := "🎨",
      capabilities := ["ux-design", "ui-design", "prototyping", "user-research"] },
    { id := "bob", name := "Bob", category := AgentCategory.core,
      personaFile := "core/bob.md",
      description := "Senior Software Engineer. Full-stack developer with deep technical expertise.",
      icon := "💻",
      capabilities := ["software-development", "code-review", "architecture", "debugging"] },
    { id := "marcus", name := "Marcus", category := AgentCategory.core,
      personaFile := "core/marcus.md",
      description := "DevOps Engineer. Infrastructure specialist for CI/CD and cloud deployments.",
      icon := "🔧",
      capabilities := ["devops", "ci-cd", "infrastructure", "monitoring"] },
    { id := "elena", name := "Elena", category := AgentCategory.core,
      personaFile := "core/elena.md",
      description := "QA Engineer. Quality assurance expert ensuring robust, reliable software.",
      icon := "🔍",
      capabilities := ["testing", "qa", "test-automation", "bug-tracking"] },
    { id := "sophie", name := "Sophie", category := AgentCategory.core,
      personaFile := "core/sophie.md",
      description := "Technical Writer. Creates clear, comprehensive documentation.",
      icon := "📝",
      capabilities := ["technical-writing", "documentation", "api-docs", "user-guides"] },
    { id := "tea", name := "Tea", category := AgentCategory.core,
      personaFile := "core/tea.md",
      description := "Test Architect. Designs comprehensive testing strategies and frameworks.",
      icon := "🧪",
      capabilities := ["test-architecture", "test-strategy", "framework-design", "quality-metrics"] },
    { id := "mary", name := "Mary", category := AgentCategory.core,
      personaFile := "core/mary.md",
      description := "Business Analyst. Bridges business needs and technical solutions.",
      icon := "📊",
      capabilities := ["business-analysis", "requirements-gathering", "process-modeling", "stakeholder-management"] } ]

/-- The six personal-team agents (`PERSONAL_AGENTS` in `src/agents/registry.ts`). -/
def PERSONAL_AGENTS : List AgentDefinition :=
  [ { id := "dominic-vega", name := "Dominic Vega", category := AgentCategory.personal,
      personaFile := "personal/dominic-vega.md",
      description := "Sales & Business Development Lead. Consultative selling and pipeline management.",
      icon := "💼",
      capabilities := ["sales", "lead-generation", "proposal-creation", "pipeline-management", "negotiation"] },
    { id := "celeste-marlowe", name := "Celeste Marlowe", category := AgentCategory.personal,
      personaFile := "personal/celeste-marlowe.md",
      description := "Marketing & Brand Strategist. Digital presence and content strategy.",
      icon := "📣",
      capabilities := ["marketing", "brand-strategy", "content-creation", "social-media", "seo"] },
    { id := "vincent-thorne", name := "Vincent Thorne", category := AgentCategory.personal,
      personaFile := "personal/vincent-thorne.md",
      description := "Finance & Operations Manager. Financial clarity and cash flow management.",
      icon := "💰",
      capabilities := ["finance", "bookkeeping", "cash-flow", "budgeting", "tax-planning"] },
    { id := "theo-ashford", name := "Theodore \"Theo\" Ashford", category := AgentCategory.personal,
      personaFile := "personal/theo-ashford.md",
      description := "Executive Assistant. Founder operations and productivity optimization.",
      icon := "📋",
      capabilities := ["scheduling", "task-management", "email-triage", "meeting-prep", "life-admin"] },
    { id := "margot-sinclair", name := "Margot Sinclair", category := AgentCategory.personal,
      personaFile := "personal/margot-sinclair.md",
      description := "Client Success Manager. Relationship building and client outcomes.",
      icon := "🤝",
      capabilities := ["client-success", "onboarding", "retention", "relationship-management", "feedback"] },
    { id := "evelyn-cross", name := "Evelyn Cross", category := AgentCategory.personal,
      personaFile := "personal/evelyn-cross.md",
      description := "Legal & Compliance Advisor. Risk navigation and contract review.",
      icon := "⚖️",
      capabilities := ["legal", "contracts", "compliance", "risk-management", "intellectual-property"] } ]

/-- The central registry, a map keyed by agent id
(`agentRegistry = new Map([...CORE_AGENTS, ...PERSONAL_AGENTS].map(a => [a.id, a]))`).
Modelled as the backing list; lookup is by first matching id. -/
def agentRegistryEntries : List AgentDefinition := CORE_AGENTS ++ PERSONAL_AGENTS

/-- `getAgentDefinition` from `src/agents/registry.ts`: `agentRegistry.get(agentId)`. -/
def getAgentDefinition (agentId : String) : Option AgentDefinition :=
  agentRegistryEntries.find? fun a => a.id == agentId

/-- `isAgentRegistered` from `src/agents/registry.ts`: `agentRegistry.has(agentId)`. -/
def isAgentRegistered (agentId : String) : Bool :=
  (getAgentDefinition agentId).isSome

/-- Turn ordering modes (`enum TurnOrderingMode` in the party-mode types module). -/
inductive TurnOrderingMode
  | roundRobin
  | dynamic
  | moderatorDirected
deriving DecidableEq

/-- Session configuration (`interface PartyModeConfig`).  `moderatorId: string | null`
becomes `Option String` (`none` = JS `null`). -/
structure PartyModeConfig where
  categoryFilter : List AgentCategory
  turnOrdering : TurnOrderingMode
  moderatorId : Option String
  maxTurns : Nat
deriving DecidableEq

/-- A `Partial<PartyModeConfig>`: each field may be absent (JS `undefined`).
For `moderatorId` the inner `Option` is the JS `string | null` value, so
`some none` is an explicitly supplied `null`. -/
structure PartialPartyModeConfig where
  categoryFilter : Option (List AgentCategory)
  turnOrdering : Option TurnOrderingMode
  moderatorId : Option (Option String)
  maxTurns : Option Nat
deriving DecidableEq

/-- `DEFAULT_PARTY_MODE_CONFIG` from the party-mode types module. -/
def DEFAULT_PARTY_MODE_CONFIG : PartyModeConfig :=
  { categoryFilter := []
    turnOrdering := TurnOrderingMode.roundRobin
    moderatorId := some "aurora-forester"
    maxTurns := 5 }

/-- Spread-merge `{...base, ...partial}` of a partial config over a full one. -/
def mergeConfig (base : PartyModeConfig) (p : PartialPartyModeConfig) : PartyModeConfig :=
  { categoryFilter := p.categoryFilter.getD base.categoryFilter
    turnOrdering := p.turnOrdering.getD base.turnOrdering
    moderatorId := p.moderatorId.getD base.moderatorId
    maxTurns := p.maxTurns.getD base.maxTurns }

/-- Participant state (`interface PartyParticipant`). -/
structure PartyParticipant where
  agentId : String
  name : String
  category : AgentCategory
  icon : String
  isModerator : Bool
  turnCount : Nat
deriving DecidableEq

/-- Message roles (`role: 'user' | 'assistant' | 'system'`). -/
inductive MessageRole
  | user
  | assistant
  | system
deriving DecidableEq

/-- Message metadata (`interface PartyMessageMetadata`), all fields optional. -/
structure PartyMessageMetadata where
  mentions : Option (List String)
  isModeratorSummary : Option Bool
  isModeratorIntro : Option Bool
  relevanceScore : Option ℚ
deriving DecidableEq

/-- Metadata record with no field set (`{}` with every field absent). -/
def emptyMetadata : PartyMessageMetadata :=
  { mentions := none, isModeratorSummary := none, isModeratorIntro := none, relevanceScore := none }

/-- JS truthiness of `m.metadata?.isModeratorSummary`: the metadata object and
the flag must both be present and the flag `true`. -/
def metadataSummaryFlag (m : Option PartyMessageMetadata) : Bool :=
  match m with
  | none => false
  | some md => md.isModeratorSummary.getD false

/-- A conversation message (`interface PartyMessage`). -/
structure PartyMessage where
  id : String
  role : MessageRole
  content : String
  agentId : Option String
  timestamp : Nat
  turnNumber : Nat
  metadata : Option PartyMessageMetadata
deriving DecidableEq

/-- Session lifecycle states (`type PartySessionState`). -/
inductive PartySessionState
  | active
  | paused
  | completed
deriving DecidableEq

/-- Complete session state (`interface PartySession`).  The optional free-form
`context` record carries no orchestration-relevant structure and is omitted. -/
structure PartySession where
  id : String
  userId : String
  config : PartyModeConfig
  topic : String
  participants : List PartyParticipant
  history : List PartyMessage
  currentTurn : Nat
  currentSpeakerIndex : Nat
  state : PartySessionState
  createdAt : Nat
  updatedAt : Nat
deriving DecidableEq

/-- The effective moderator id used when building participants in `createSession`:
`config?.moderatorId ?? DEFAULT_PARTY_MODE_CONFIG.moderatorId`.  JS `??`
falls through on both `undefined` (absent config or absent field) and an
explicit `null` (`some none`). -/
def effectiveModeratorId (config : Option PartialPartyModeConfig) : Option String :=
  match config with
  | none => DEFAULT_PARTY_MODE_CONFIG.moderatorId
  | some c =>
    match c.moderatorId with
    | none => DEFAULT_PARTY_MODE_CONFIG.moderatorId
    | some none => DEFAULT_PARTY_MODE_CONFIG.moderatorId
    | some (some s) => some s

/-- The participant-building loop of `createSession`: unresolvable agent ids are
silently dropped, and `isModerator: agentId === moderatorId` (comparison with a
JS `null` moderator id is always false). -/
def buildParticipants (agentIds : List String) (moderatorId : Option String) :
    List PartyParticipant :=
  agentIds.filterMap fun agentId =>
    (getAgentDefinition agentId).map fun agentDef =>
      { agentId := agentId
        name := agentDef.name
        category := agentDef.category
        icon := agentDef.icon
        isModerator := moderatorId == some agentId
        turnCount := 0 }

/-- `createSession` from `src/services/party-session-store.ts`.  The generated
`randomUUID()` and `Date.now()` are passed in as `sessionId` and `now`; the
insertion into the global map is modelled by returning the session value. -/
def createSession (userId : String) (agentIds : List String) (topic : String)
    (config : Option PartialPartyModeConfig) (sessionId : String) (now : Nat) :
    PartySession :=
  let moderatorId := effectiveModeratorId config
  let participants := buildParticipants agentIds moderatorId
  let sessionConfig :=
    match config with
    | none => DEFAULT_PARTY_MODE_CONFIG
    | some c => mergeConfig DEFAULT_PARTY_MODE_CONFIG c
  { id := sessionId
    userId := userId
    config := sessionConfig
    topic := topic
    participants := participants
    history := []
    currentTurn := 0
    currentSpeakerIndex := 0
    state := PartySessionState.active
    createdAt := now
    updatedAt := now }

/-- `updateSessionConfig` from `src/services/party-session-store.ts`, acting on
the session found in the store.  The config is spread-merged; if `moderatorId`
was supplied (including an explicit `null`), every participant's `isModerator`
flag is re-derived via `participant.agentId === config.moderatorId`. -/
def updateSessionConfig (session : PartySession) (config : PartialPartyModeConfig)
    (now : Nat) : PartySession :=
  let newConfig := mergeConfig session.config config
  let participants :=
    match config.moderatorId with
    | none => session.participants
    | some mid => session.participants.map fun p => { p with isModerator := mid == some p.agentId }
  { session with config := newConfig, participants := participants, updatedAt := now }

/-- Payload of `addMessageToSession` (`Omit<PartyMessage, 'id' | 'timestamp'>`). -/
structure NewPartyMessage where
  role : MessageRole
  content : String
  agentId : Option String
  turnNumber : Nat
  metadata : Option PartyMessageMetadata
deriving DecidableEq

/-- The `find`-then-increment step of `addMessageToSession`: only the first
participant whose `agentId` matches has `turnCount` incremented. -/
def incrementTurnCount : List PartyParticipant → String → List PartyParticipant
  | [], _ => []
  | p :: ps, aid =>
    if p.agentId == aid then { p with turnCount := p.turnCount + 1 } :: ps
    else p :: incrementTurnCount ps aid

/-- `addMessageToSession` from `src/services/party-session-store.ts`, acting on
the session found in the store.  The generated id and timestamp are the
`messageId` and `now` parameters.  `if (message.agentId)` is a JS truthiness
test, so an empty-string agent id does not bump any turn count. -/
def addMessageToSession (session : PartySession) (message : NewPartyMessage)
    (messageId : String) (now : Nat) : PartySession :=
  let fullMessage : PartyMessage :=
    { id := messageId
      role := message.role
      content := message.content
      agentId := message.agentId
      timestamp := now
      turnNumber := message.turnNumber
      metadata := message.metadata }
  let participants :=
    match message.agentId with
    | none => session.participants
    | some aid => if aid == "" then session.participants else incrementTurnCount session.participants aid
  { session with
      history := session.history ++ [fullMessage]
      participants := participants
      updatedAt := now }

/-- The in-memory store `sessionStore : Map<string, PartySession>`, modelled as
an association list in insertion order. -/
def SessionStoreModel : Type := List (String × PartySession)

/-- `cleanupOldSessions` from `src/services/party-session-store.ts`: iterates the
store deleting every session with `now - session.updatedAt > maxAge` and counts
the deletions.  The subtraction is JS number arithmetic, so it is taken in `ℤ`. -/
def cleanupOldSessions : List (String × PartySession) → Nat → Int →
    List (String × PartySession) × Nat
  | [], _, _ => ([], 0)
  | entry :: rest, now, maxAge =>
    let result := cleanupOldSessions rest now maxAge
    if (now : Int) - (entry.2.updatedAt : Int) > maxAge then (result.1, result.2 + 1)
    else (entry :: result.1, result.2)

/-- Scanner state for the mention regex `/@([a-zA-Z][a-zA-Z0-9-]*)/g`:
either between matches, right after an `@`, or inside a candidate identifier
(accumulated in reverse). -/
inductive MentionScanState
  | idle
  | afterAt
  | building (cs : List Char)

/-- One-pass scanner equivalent to repeatedly `exec`ing the mention regex:
an `@` followed by a letter starts an identifier, which greedily extends over
letters, digits and hyphens; an `@` that ends an identifier or follows a
non-matching `@` immediately starts a new attempt. -/
def scanMentionsAux : MentionScanState → List Char → List (List Char)
  | MentionScanState.building cs, [] => [cs.reverse]
  | _, [] => []
  | MentionScanState.building cs, c :: rest =>
    if c.isAlphanum || c == '-' then scanMentionsAux (MentionScanState.building (c :: cs)) rest
    else cs.reverse ::
      scanMentionsAux (if c == '@' then MentionScanState.afterAt else MentionScanState.idle) rest
  | MentionScanState.afterAt, c :: rest =>
    if c.isAlpha then scanMentionsAux (MentionScanState.building [c]) rest
    else scanMentionsAux (if c == '@' then MentionScanState.afterAt else MentionScanState.idle) rest
  | MentionScanState.idle, c :: rest =>
    scanMentionsAux (if c == '@' then MentionScanState.afterAt else MentionScanState.idle) rest

/-- All raw capture groups produced by the mention regex over a message, in
match order. -/
def scanMentions (message : String) : List (List Char) :=
  scanMentionsAux MentionScanState.idle message.data

/-- ASCII lowercasing of `String.prototype.toLowerCase()` on the character list
of a string (all strings involved here are ASCII). -/
def jsLowerChars (cs : List Char) : List Char := cs.map Char.toLower

/-- Result of `parseMentions` (`interface MentionParseResult`). -/
structure MentionParseResult where
  validMentions : List String
  invalidMentions : List String
  hasMentions : Bool
  primaryMention : Option String
deriving DecidableEq

/-- Append an element only if not already present (the de-duplicating
`if (!xs.includes(id)) xs.push(id)` step of `parseMentions`). -/
def pushUnique (l : List String) (x : String) : List String :=
  if l.contains x then l else l ++ [x]

/-- The classification loop of `parseMentions`: each lower-cased capture goes to
`validMentions` if registered, else to `invalidMentions`, without duplicates. -/
def classifyMentions : List String → List String × List String → List String × List String
  | [], acc => acc
  | mentionedId :: rest, acc =>
    if isAgentRegistered mentionedId then
      classifyMentions rest (pushUnique acc.1 mentionedId, acc.2)
    else
      classifyMentions rest (acc.1, pushUnique acc.2 mentionedId)

/-- `parseMentions` from the mention-parser module: scan, lower-case each
captured id, classify against the registry, and report
`hasMentions = validMentions.length > 0` and
`primaryMention = validMentions.length > 0 ? validMentions[0] : null`. -/
def parseMentions (message : String) : MentionParseResult :=
  let rawMentions := (scanMentions message).map fun cs => String.mk (jsLowerChars cs)
  let classified := classifyMentions rawMentions ([], [])
  { validMentions := classified.1
    invalidMentions := classified.2
    hasMentions := decide (0 < classified.1.length)
    primaryMention := if 0 < classified.1.length then classified.1[0]? else none }

/-- JS falsiness of the optional `lastMessage` argument (`if (!lastMessage)`):
absent or the empty string. -/
def jsFalsyOptStr (s : Option String) : Bool :=
  match s with
  | none => true
  | some str => str == ""

/-- `RoundRobinStrategy.getNextSpeaker` from `src/services/turn-ordering.ts`:
`nonModeratorParticipants[session.currentSpeakerIndex % nonModeratorParticipants.length].agentId`.
The JS out-of-bounds access (index `NaN` when the list is empty, then a
`TypeError` on `.agentId`) is the `none` branch of the `Option`. -/
def roundRobinGetNextSpeaker (session : PartySession) : Option String :=
  let nonModeratorParticipants := session.participants.filter fun p => !p.isModerator
  let nextIndex := session.currentSpeakerIndex % nonModeratorParticipants.length
  (nonModeratorParticipants[nextIndex]?).map fun p => p.agentId

/-- `RoundRobinStrategy.getSpeakersForRound`; the interface also passes the last
message, which the round-robin implementation ignores. -/
def roundRobinGetSpeakersForRound (session : PartySession) (lastMessage : Option String) :
    List String :=
  let _ := lastMessage
  (session.participants.filter fun p => !p.isModerator).map fun p => p.agentId

/-- JS `hay.includes(needle)` on character lists: `true` iff `needle` occurs as
a contiguous substring of `hay` (every string includes the empty string). -/
def containsSubstring (hay needle : List Char) : Bool :=
  match hay with
  | [] => needle.isEmpty
  | _ :: t => needle.isPrefixOf hay || containsSubstring t needle

/-- `DynamicStrategy.calculateRelevanceScore`:
`Math.max(...session.participants.map(p => p.turnCount), 1)` minus the
participant's turn count, times 10, plus 50 if the participant's display name
occurs case-insensitively in the message, plus `Math.random() * 5` (the random
draw is the explicit `jitter` argument). -/
def calculateRelevanceScore (participant : PartyParticipant) (message : String)
    (session : PartySession) (jitter : ℚ) : ℚ :=
  let maxTurns : Nat := (session.participants.map fun p => p.turnCount).foldr max 1
  ((maxTurns : ℚ) - (participant.turnCount : ℚ)) * 10
    + (if containsSubstring (jsLowerChars message.data) (jsLowerChars participant.name.data) then 50 else 0)
    + jitter

/-- `DynamicStrategy.getLeastSpokenAgent`: a linear scan starting from
`participants[0]` keeping the strictly smaller turn count; on an empty list the
JS code dereferences `undefined`, the `none` branch here. -/
def getLeastSpokenAgent (participants : List PartyParticipant) : Option String :=
  match participants with
  | [] => none
  | p₀ :: rest =>
    some ((rest.foldl (fun best p => if p.turnCount < best.turnCount then p else best) p₀).agentId)

/-- `DynamicStrategy.getNextSpeaker`: falsy message ⇒ least-spoken agent;
otherwise a valid `@mention` of a participant wins outright; otherwise the
participants are scored and stably sorted by descending score and the head is
returned.  `jitter` supplies each participant's `Math.random() * 5` draw. -/
def dynamicGetNextSpeaker (session : PartySession) (lastMessage : Option String)
    (jitter : String → ℚ) : Option String :=
  let nonModeratorParticipants := session.participants.filter fun p => !p.isModerator
  if jsFalsyOptStr lastMessage then
    getLeastSpokenAgent nonModeratorParticipants
  else
    let msg := lastMessage.getD ""
    let mentionResult := parseMentions msg
    let mentioned : Option PartyParticipant :=
      if mentionResult.hasMentions then
        nonModeratorParticipants.find? fun p => mentionResult.validMentions.contains p.agentId
      else none
    match mentioned with
    | some p => some p.agentId
    | none =>
      let scored := nonModeratorParticipants.map fun p =>
        (p, calculateRelevanceScore p msg session (jitter p.agentId))
      let sorted := scored.mergeSort fun a b => decide (b.2 ≤ a.2)
      sorted.head?.map fun pr => pr.1.agentId

/-- `hasModerator` from the moderator service:
`session.config.moderatorId !== null && session.participants.some(p => p.isModerator)`. -/
def hasModerator (session : PartySession) : Bool :=
  session.config.moderatorId != none && session.participants.any fun p => p.isModerator

/-- `getCurrentTurnMessages` from the moderator service. -/
def getCurrentTurnMessages (session : PartySession) : List PartyMessage :=
  session.history.filter fun m => m.turnNumber == session.currentTurn

/-- JS truthiness of the optional `m.agentId` string field
(`m.role === 'assistant' && m.agentId`). -/
def jsTruthyOptStr (s : Option String) : Bool :=
  match s with
  | none => false
  | some str => !(str == "")

/-- `shouldModeratorSummarize` from the moderator service: requires a moderator,
every non-moderator participant among the current turn's assistant speakers,
and no summary-flagged message in the current turn. -/
def shouldModeratorSummarize (session : PartySession) : Bool :=
  if !hasModerator session then false
  else
    let currentTurnMessages := getCurrentTurnMessages session
    let nonModeratorParticipants := session.participants.filter fun p => !p.isModerator
    let speakersThisTurn :=
      (currentTurnMessages.filter fun m =>
        m.role == MessageRole.assistant && jsTruthyOptStr m.agentId).filterMap fun m => m.agentId
    if nonModeratorParticipants.any (fun p => !speakersThisTurn.contains p.agentId) then false
    else
      let moderatorSummarizedThisTurn :=
        currentTurnMessages.any fun m => metadataSummaryFlag m.metadata
      !moderatorSummarizedThisTurn

/-- Outcome of one completion-provider invocation as seen by
`AgentService.invoke`: the service may lack an API key, fail to resolve the
persona, succeed with text, or reject with an error message. -/
inductive ProviderOutcome
  | notConfigured
  | unknownAgent
  | success (text : String)
  | failure (errorMessage : String)
deriving DecidableEq

/-- The message text `AgentService.invoke` returns in each branch.  The function
is total: every branch, including the `catch`, resolves to a response whose
`message` is ordinary text — the caller never sees a thrown error. -/
def invokeMessage (agentId : String) (outcome : ProviderOutcome) : String :=
  match outcome with
  | ProviderOutcome.notConfigured => "Agent service not configured. Please set ANTHROPIC_API_KEY."
  | ProviderOutcome.unknownAgent => "Unknown agent: " ++ agentId
  | ProviderOutcome.success text => text
  | ProviderOutcome.failure errorMessage => "Error invoking agent: " ++ errorMessage

/-- `createMentionMetadata` from the mention-parser module. -/
def createMentionMetadata (message : String) : Option PartyMessageMetadata :=
  let parseResult := parseMentions message
  if parseResult.hasMentions then
    some { emptyMetadata with mentions := some parseResult.validMentions }
  else none

/-- JS `a?.field || fallback` for the display-name/icon fallbacks in the round
loop (`agentDef?.name || agentId`): absent or empty means the fallback. -/
def jsOrElse (a : Option String) (fallback : String) : String :=
  match a with
  | none => fallback
  | some s => if s == "" then fallback else s

/-- Per-agent response record assembled by the party-mode routes
(`interface PartyModeAgentResponse`). -/
structure PartyModeAgentResponse where
  agentId : String
  name : String
  icon : String
  message : String
  turnNumber : Nat
  metadata : Option PartyMessageMetadata
deriving DecidableEq

/-- The per-round speaker loop of the party-mode start/continue handlers: for
each speaker in order, invoke the agent service (whose outcome is given by
`outcome`), tag mentions in the reply, collect the response record, and append
the message to the session.  `idGen k` supplies the `randomUUID()` of the
`k`-th appended message and `now` the timestamp. -/
def runRound (outcome : String → ProviderOutcome) (idGen : Nat → String) (now : Nat)
    (turnNumber : Nat) :
    PartySession → List String → Nat → PartySession × List PartyModeAgentResponse
  | session, [], _ => (session, [])
  | session, agentId :: rest, k =>
    let agentDef := getAgentDefinition agentId
    let message := invokeMessage agentId (outcome agentId)
    let mentionMetadata := createMentionMetadata message
    let partyResponse : PartyModeAgentResponse :=
      { agentId := agentId
        name := jsOrElse (agentDef.map fun d => d.name) agentId
        icon := jsOrElse (agentDef.map fun d => d.icon) "🤖"
        message := message
        turnNumber := turnNumber
        metadata := mentionMetadata }
    let session' := addMessageToSession session
      { role := MessageRole.assistant
        content := message
        agentId := some agentId
        turnNumber := turnNumber
        metadata := mentionMetadata } (idGen k) now
    let result := runRound outcome idGen now turnNumber session' rest (k + 1)
    (result.1, partyResponse :: result.2)

/-- Relevance score as §4.2 of the specification words it:
`(maxTurnCountAcrossParticipants − thisParticipant.turnCount) × 10`, `+50` if
the display name appears case-insensitively in the message, where
`maxTurnCountAcrossParticipants` is the maximum `turnCount` over the
participants (no other term). -/
def specRelevanceScore (participant : PartyParticipant) (message : String)
    (session : PartySession) : ℚ :=
  let maxTurns : Nat := (session.participants.map fun p => p.turnCount).foldr max 0
  ((maxTurns : ℚ) - (participant.turnCount : ℚ)) * 10
    + (if containsSubstring (jsLowerChars message.data) (jsLowerChars participant.name.data) then 50 else 0)

/-! ### Helper lemmas about participant construction and moderator flags -/

/-- Every participant built by `createSession` comes from the input id list and
carries the flag `moderatorId == some agentId`. -/
theorem mem_buildParticipants {p : PartyParticipant} {l : List String}
    {mod : Option String} (h : p ∈ buildParticipants l mod) :
    p.agentId ∈ l ∧ p.isModerator = (mod == some p.agentId) := by
  simp only [buildParticipants, List.mem_filterMap] at h
  obtain ⟨a, ha, hfa⟩ := h
  cases hd : getAgentDefinition a with
  | none => rw [hd] at hfa; simp at hfa
  | some d =>
    rw [hd] at hfa
    simp only [Option.map_some', Option.some.injEq] at hfa
    subst hfa
    exact ⟨ha, rfl⟩

/-- The participant ids produced by `createSession` are exactly the resolvable
input ids, in order. -/
theorem buildParticipants_map_agentId (l : List String) (mod : Option String) :
    (buildParticipants l mod).map (fun p => p.agentId)
      = l.filter fun a => (getAgentDefinition a).isSome := by
  induction l with
  | nil => rfl
  | cons a t ih =>
    simp only [buildParticipants, List.filterMap_cons, List.filter_cons]
    cases hd : getAgentDefinition a with
    | none => simpa [hd] using ih
    | some d => simpa [hd] using ih

/-- A list of participants whose flags all equal `mod == some agentId` and whose
ids are pairwise distinct has at most one flagged member. -/
theorem flaggedCount_le_one (l : List PartyParticipant) (mod : Option String)
    (hflag : ∀ p ∈ l, p.isModerator = (mod == some p.agentId))
    (hnodup : (l.map fun p => p.agentId).Nodup) :
    (l.filter fun p => p.isModerator).length ≤ 1 := by
  induction l with
  | nil => simp
  | cons p t ih =>
    simp only [List.map_cons, List.nodup_cons, List.mem_map] at hnodup
    obtain ⟨hpn, hnd⟩ := hnodup
    have hp := hflag p (List.mem_cons_self p t)
    rw [List.filter_cons]
    by_cases hmod : p.isModerator = true
    · have hmodEq : mod = some p.agentId := by
        rw [hp] at hmod
        exact eq_of_beq hmod
      have ht : t.filter (fun q => q.isModerator) = [] := by
        rw [List.filter_eq_nil_iff]
        intro q hq
        have hqf := hflag q (List.mem_cons_of_mem p hq)
        rw [hmodEq] at hqf
        simp only [Bool.not_eq_true]
        rw [hqf]
        simp only [beq_eq_false_iff_ne, ne_eq, Option.some.injEq]
        intro hEq
        exact hpn ⟨q, hq, hEq.symm⟩
      simp [hmod, ht]
    · simp only [hmod, if_false, Bool.false_eq_true]
      exact ih (fun q hq => hflag q (List.mem_cons_of_mem p hq)) hnd

/-- The effective moderator id used for flags agrees with the stored merged
config whenever the supplied config did not set `moderatorId` to an explicit
`null`. -/
theorem effectiveModeratorId_eq_merged (config : Option PartialPartyModeConfig)
    (h : (config.bind fun c => c.moderatorId) ≠ some none) :
    effectiveModeratorId config
      = (match config with
         | none => DEFAULT_PARTY_MODE_CONFIG
         | some c => mergeConfig DEFAULT_PARTY_MODE_CONFIG c).moderatorId := by
  cases config with
  | none => rfl
  | some c =>
    cases hm : c.moderatorId with
    | none => simp [effectiveModeratorId, mergeConfig, hm]
    | some v =>
      cases v with
      | none => exact absurd (by simp [Option.bind, hm]) h
      | some s => simp [effectiveModeratorId, mergeConfig, hm]

/-- Invariant: at most one participant of a session carries the moderator flag. -/
def atMostOneModeratorFlag (s : PartySession) : Prop :=
  (s.participants.filter fun p => p.isModerator).length ≤ 1

/-- Invariant: a participant is flagged as moderator exactly when its id is the
configured `moderatorId`. -/
def moderatorFlagMatchesConfig (s : PartySession) : Prop :=
  ∀ p ∈ s.participants, p.isModerator = true ↔ s.config.moderatorId = some p.agentId

instance (s : PartySession) : Decidable (atMostOneModeratorFlag s) := by
  unfold atMostOneModeratorFlag; infer_instance

instance (s : PartySession) : Decidable (moderatorFlagMatchesConfig s) := by
  unfold moderatorFlagMatchesConfig; exact List.decidableBAll _ _

/-- C1 counterexample: `createSession` with an explicit `moderatorId: null`
override stores `null` in the session config yet still flags the default
moderator `aurora-forester` (because `config?.moderatorId ?? DEFAULT` coalesces
the `null` away), and duplicated moderator ids yield two flagged participants —
so the claimed if-and-only-if consistency with `config.moderatorId`, and the
at-most-one bound, both fail as stated. -/
theorem moderator_flag_consistency_counterexample :
    (createSession "u1" ["aurora-forester", "bob"] "t"
        (some { categoryFilter := none, turnOrdering := none,
                moderatorId := some none, maxTurns := none }) "s1" 0).config.moderatorId = none
    ∧ ((createSession "u1" ["aurora-forester", "bob"] "t"
        (some { categoryFilter := none, turnOrdering := none,
                moderatorId := some none, maxTurns := none }) "s1" 0).participants.map
          fun p => p.isModerator) = [true, false]
    ∧ ((createSession "u1" ["aurora-forester", "aurora-forester"] "t" none "s2" 0).participants.map
          fun p => p.isModerator) = [true, true] := by
  decide

/-- C1 (amended): for `createSession`, if the requested agent ids are pairwise
distinct then at most one participant is flagged as moderator, and if the
supplied config does not set `moderatorId` to an explicit `null` then a
participant is flagged exactly when its id equals the stored
`config.moderatorId`; for `updateSessionConfig`, a partial config without a
`moderatorId` field leaves participants and stored moderator id unchanged
(preserving both invariants), and one with a `moderatorId` field re-derives
every flag to match the new stored moderator id, with at most one flagged
participant whenever the session's participant ids are pairwise distinct. -/
theorem moderator_flag_consistency (userId : String) (agentIds : List String)
    (topic : String) (config : Option PartialPartyModeConfig) (sessionId : String)
    (now : Nat) (s : PartySession) (pc : PartialPartyModeConfig) (now' : Nat) :
    (agentIds.Nodup →
      atMostOneModeratorFlag (createSession userId agentIds topic config sessionId now))
    ∧ ((config.bind fun c => c.moderatorId) ≠ some none →
      moderatorFlagMatchesConfig (createSession userId agentIds topic config sessionId now))
    ∧ (pc.moderatorId = none →
      (updateSessionConfig s pc now').participants = s.participants
      ∧ (updateSessionConfig s pc now').config.moderatorId = s.config.moderatorId
      ∧ (moderatorFlagMatchesConfig s → moderatorFlagMatchesConfig (updateSessionConfig s pc now'))
      ∧ (atMostOneModeratorFlag s → atMostOneModeratorFlag (updateSessionConfig s pc now')))
    ∧ (∀ mid, pc.moderatorId = some mid →
      moderatorFlagMatchesConfig (updateSessionConfig s pc now')
      ∧ ((s.participants.map fun p => p.agentId).Nodup →
          atMostOneModeratorFlag (updateSessionConfig s pc now'))) := by
  refine ⟨?_, ?_, ?_, ?_⟩
  · intro hnodup
    unfold atMostOneModeratorFlag createSession
    refine flaggedCount_le_one _ (effectiveModeratorId config) ?_ ?_
    · intro p hp
      exact (mem_buildParticipants hp).2
    · rw [buildParticipants_map_agentId]
      exact hnodup.filter _
  · intro hnn
    unfold moderatorFlagMatchesConfig
    intro p hp
    have hflag := (@mem_buildParticipants p agentIds (effectiveModeratorId config) hp).2
    have heq := effectiveModeratorId_eq_merged config hnn
    show p.isModerator = true ↔ (createSession userId agentIds topic config sessionId now).config.moderatorId = some p.agentId
    rw [hflag, heq]
    cases config <;> simp [createSession, beq_iff_eq]
  · intro hnone
    unfold updateSessionConfig
    rw [hnone]
    refine ⟨rfl, ?_, ?_, ?_⟩
    · simp [mergeConfig, hnone]
    · intro hinv p hp
      have := hinv p hp
      simpa [mergeConfig, hnone] using this
    · intro hinv
      exact hinv
  · intro mid hmid
    constructor
    · intro p hp
      unfold updateSessionConfig at hp ⊢
      rw [hmid] at hp ⊢
      simp only [List.mem_map] at hp
      obtain ⟨q, _, hq⟩ := hp
      subst hq
      simp [mergeConfig, hmid, beq_iff_eq]
    · intro hnodup
      unfold atMostOneModeratorFlag updateSessionConfig
      rw [hmid]
      refine flaggedCount_le_one _ mid ?_ ?_
      · intro p hp
        simp only [List.mem_map] at hp
        obtain ⟨q, _, hq⟩ := hp
        subst hq
        rfl
      · simpa [List.map_map, Function.comp] using hnodup

/-- Witness for the amended C1 theorem: a concrete creation with distinct ids
and a default (non-null) config satisfies both invariants, and a concrete
reconfiguration to moderator `tea` re-derives matching flags. -/
theorem moderator_flag_consistency_witness :
    atMostOneModeratorFlag (createSession "u1" ["aurora-forester", "bob"] "t" none "sid" 0)
    ∧ moderatorFlagMatchesConfig (createSession "u1" ["aurora-forester", "bob"] "t" none "sid" 0)
    ∧ moderatorFlagMatchesConfig (updateSessionConfig
        (createSession "u1" ["aurora-forester", "bob", "tea"] "t" none "sid" 0)
        { categoryFilter := none, turnOrdering := none,
          moderatorId := some (some "tea"), maxTurns := none } 5) :=
  ⟨(moderator_flag_consistency "u1" ["aurora-forester", "bob"] "t" none "sid" 0
      (createSession "u1" ["aurora-forester", "bob", "tea"] "t" none "sid" 0)
      { categoryFilter := none, turnOrdering := none,
        moderatorId := some (some "tea"), maxTurns := none } 5).1 (by decide),
   (moderator_flag_consistency "u1" ["aurora-forester", "bob"] "t" none "sid" 0
      (createSession "u1" ["aurora-forester", "bob", "tea"] "t" none "sid" 0)
      { categoryFilter := none, turnOrdering := none,
        moderatorId := some (some "tea"), maxTurns := none } 5).2.1 (by decide),
   ((moderator_flag_consistency "u1" ["aurora-forester", "bob"] "t" none "sid" 0
      (createSession "u1" ["aurora-forester", "bob", "tea"] "t" none "sid" 0)
      { categoryFilter := none, turnOrdering := none,
        moderatorId := some (some "tea"), maxTurns := none } 5).2.2.2
      (some "tea") rfl).1⟩

/-- C3 counterexample: `createSession` performs no de-duplication, so a repeated
input id produces two participants with the same `agentId`. -/
theorem no_duplicate_participants_counterexample :
    ((createSession "u1" ["bob", "bob"] "t" none "s1" 0).participants.map
        fun p => p.agentId) = ["bob", "bob"]
    ∧ ¬ ((createSession "u1" ["bob", "bob"] "t" none "s1" 0).participants.map
        fun p => p.agentId).Nodup := by
  decide

/-- C3 (amended): if the agent ids passed to `createSession` are pairwise
distinct then the resulting participant list has pairwise distinct `agentId`s,
and `updateSessionConfig` never changes the sequence of participant ids — so
the no-duplicate invariant holds along any create/reconfigure sequence whose
creation input had no repeats. -/
theorem no_duplicate_participants (userId : String) (agentIds : List String)
    (topic : String) (config : Option PartialPartyModeConfig) (sessionId : String)
    (now : Nat) (s : PartySession) (pc : PartialPartyModeConfig) (now' : Nat) :
    (agentIds.Nodup →
      ((createSession userId agentIds topic config sessionId now).participants.map
        fun p => p.agentId).Nodup)
    ∧ ((updateSessionConfig s pc now').participants.map fun p => p.agentId)
        = s.participants.map fun p => p.agentId := by
  constructor
  · intro hnodup
    show ((buildParticipants agentIds (effectiveModeratorId config)).map fun p => p.agentId).Nodup
    rw [buildParticipants_map_agentId]
    exact hnodup.filter _
  · unfold updateSessionConfig
    cases hm : pc.moderatorId with
    | none => rfl
    | some mid => simp [List.map_map, Function.comp]

/-- Witness for the amended C3 theorem at a concrete distinct-id creation and a
concrete reconfiguration. -/
theorem no_duplicate_participants_witness :
    ((createSession "u1" ["bob", "tea"] "t" none "sid" 0).participants.map
        fun p => p.agentId).Nodup
    ∧ ((updateSessionConfig (createSession "u1" ["bob", "tea"] "t" none "sid" 0)
          { categoryFilter := none, turnOrdering := none,
            moderatorId := some (some "tea"), maxTurns := none } 5).participants.map
        fun p => p.agentId)
      = (createSession "u1" ["bob", "tea"] "t" none "sid" 0).participants.map
          fun p => p.agentId :=
  ⟨(no_duplicate_participants "u1" ["bob", "tea"] "t" none "sid" 0
      (createSession "u1" ["bob", "tea"] "t" none "sid" 0)
      { categoryFilter := none, turnOrdering := none,
        moderatorId := some (some "tea"), maxTurns := none } 5).1 (by decide),
   (no_duplicate_participants "u1" ["bob", "tea"] "t" none "sid" 0
      (createSession "u1" ["bob", "tea"] "t" none "sid" 0)
      { categoryFilter := none, turnOrdering := none,
        moderatorId := some (some "tea"), maxTurns := none } 5).2⟩

/-- C8: the idle sweep keeps exactly the sessions whose `updatedAt` is not
strictly older than `maxAge` before `now`, returns the number of removed
sessions, and on the boundary a session last updated `maxAge + 1` ago is
removed while one last updated `maxAge - 1` ago is kept. -/
theorem idle_sweep_boundary_and_count (store : List (String × PartySession))
    (now : Nat) (maxAge : Int) :
    (cleanupOldSessions store now maxAge).1
      = store.filter (fun e => !decide ((now : Int) - (e.2.updatedAt : Int) > maxAge))
    ∧ (cleanupOldSessions store now maxAge).2
      = (store.filter fun e => decide ((now : Int) - (e.2.updatedAt : Int) > maxAge)).length
    ∧ cleanupOldSessions
        [("a", createSession "u" [] "t" none "a" 3999),
         ("b", createSession "u" [] "t" none "b" 4001)] 5000 1000
      = ([("b", createSession "u" [] "t" none "b" 4001)], 1) := by
  refine ⟨?_, ?_, by decide⟩
  · induction store with
    | nil => rfl
    | cons e rest ih =>
      simp only [cleanupOldSessions, List.filter_cons]
      by_cases h : (now : Int) - (e.2.updatedAt : Int) > maxAge
      · simp [h, ih]
      · simp [h, ih]
  · induction store with
    | nil => rfl
    | cons e rest ih =>
      simp only [cleanupOldSessions, List.filter_cons]
      by_cases h : (now : Int) - (e.2.updatedAt : Int) > maxAge
      · simp [h, ih]
      · simp [h, ih]

/-- C6: round-robin `getSpeakersForRound` ignores the message, returns exactly
the non-moderator participants' ids in stored order (an order-preserving
sub-sequence of the full participant id list, containing an id exactly when a
non-moderator participant carries it), and is therefore deterministic. -/
theorem round_robin_round_is_stored_order (s : PartySession) (m₁ m₂ : Option String) :
    roundRobinGetSpeakersForRound s m₁ = roundRobinGetSpeakersForRound s m₂
    ∧ roundRobinGetSpeakersForRound s m₁
        = (s.participants.filter fun p => !p.isModerator).map (fun p => p.agentId)
    ∧ (roundRobinGetSpeakersForRound s m₁).Sublist (s.participants.map (fun p => p.agentId))
    ∧ ∀ a, a ∈ roundRobinGetSpeakersForRound s m₁
        ↔ ∃ p ∈ s.participants, p.isModerator = false ∧ p.agentId = a := by
  refine ⟨rfl, rfl, ?_, ?_⟩
  · exact (List.filter_sublist s.participants).map fun p => p.agentId
  · intro a
    simp only [roundRobinGetSpeakersForRound, List.mem_map, List.mem_filter,
      Bool.not_eq_true']
    constructor
    · rintro ⟨p, ⟨hp, hpm⟩, hpa⟩
      exact ⟨p, hp, hpm, hpa⟩
    · rintro ⟨p, hp, hpm, hpa⟩
      exact ⟨p, ⟨hp, hpm⟩, hpa⟩

/-- Fixture: a session whose only non-moderator participant is `bob`. -/
def sessionWithBob : PartySession :=
  createSession "u1" ["aurora-forester", "bob"] "t" none "sidA" 0

/-- Fixture: a session whose sole participant is the moderator, so the
non-moderator list is empty. -/
def sessionNoSpeakers : PartySession :=
  createSession "u1" ["aurora-forester"] "t" none "sidB" 0

/-- C10: whenever at least one non-moderator participant exists, the round-robin
next-speaker access at `currentSpeakerIndex % length` is in bounds and yields
that participant's id; with zero non-moderator participants the access is out
of bounds (the embedding's `none`, the JS `TypeError`). -/
theorem round_robin_next_speaker_safety (s : PartySession) :
    (∀ h : 0 < (s.participants.filter fun p => !p.isModerator).length,
      roundRobinGetNextSpeaker s
        = some (((s.participants.filter fun p => !p.isModerator).get
            ⟨s.currentSpeakerIndex % (s.participants.filter fun p => !p.isModerator).length,
             Nat.mod_lt _ h⟩).agentId))
    ∧ ((s.participants.filter fun p => !p.isModerator).length = 0 →
      roundRobinGetNextSpeaker s = none) := by
  constructor
  · intro h
    have hdef : roundRobinGetNextSpeaker s
        = Option.map (fun p => p.agentId)
            ((s.participants.filter fun p => !p.isModerator)[s.currentSpeakerIndex %
              (s.participants.filter fun p => !p.isModerator).length]?) := rfl
    rw [hdef, List.getElem?_eq_getElem (Nat.mod_lt _ h)]
    rfl
  · intro h
    have hdef : roundRobinGetNextSpeaker s
        = Option.map (fun p => p.agentId)
            ((s.participants.filter fun p => !p.isModerator)[s.currentSpeakerIndex %
              (s.participants.filter fun p => !p.isModerator).length]?) := rfl
    rw [hdef, List.getElem?_eq_none (by omega)]
    rfl

/-- Witness for C10 at concrete sessions: with `bob` as the only non-moderator
the speaker is `bob`; with none the error branch is reached. -/
theorem round_robin_next_speaker_safety_witness :
    roundRobinGetNextSpeaker sessionWithBob = some "bob"
    ∧ roundRobinGetNextSpeaker sessionNoSpeakers = none := by
  constructor
  · rw [(round_robin_next_speaker_safety sessionWithBob).1 (by decide)]
    rfl
  · exact (round_robin_next_speaker_safety sessionNoSpeakers).2 (by decide)

/-! ### Lemmas about folded maxima (for the dynamic relevance score) -/

/-- Folding `max` from an arbitrary seed equals `max` of the seed with the fold
from zero. -/
theorem foldr_max_seed (l : List Nat) (c : Nat) :
    l.foldr max c = max c (l.foldr max 0) := by
  induction l with
  | nil => simp
  | cons a t ih => simp only [List.foldr_cons, ih, max_left_comm]

/-- Every member is bounded by the fold of `max` from zero. -/
theorem le_foldr_max {x : Nat} {l : List Nat} (hx : x ∈ l) :
    x ≤ l.foldr max 0 := by
  induction l with
  | nil => cases hx
  | cons a t ih =>
    rcases List.mem_cons.mp hx with h | h
    · subst h; exact le_max_left _ _
    · exact le_trans (ih h) (le_max_right _ _)

/-- Fixture: the registry participant record for `bob` with zero turns. -/
def bobParticipant : PartyParticipant :=
  { agentId := "bob", name := "Bob", category := AgentCategory.core,
    icon := "💻", isModerator := false, turnCount := 0 }

/-- Fixture: a session whose sole participant has never spoken. -/
def zeroTurnSession : PartySession :=
  { id := "sz", userId := "u", config := DEFAULT_PARTY_MODE_CONFIG, topic := "t",
    participants := [bobParticipant], history := [], currentTurn := 0,
    currentSpeakerIndex := 0, state := PartySessionState.active,
    createdAt := 0, updatedAt := 0 }

/-- C2 counterexample: when no participant has spoken yet the code's
`Math.max(...turnCounts, 1)` floors the maximum at 1, so the computed score is
10, not the 0 the claimed formula (maximum over the participants) gives. -/
theorem dynamic_relevance_score_counterexample :
    calculateRelevanceScore bobParticipant "" zeroTurnSession 0
      ≠ specRelevanceScore bobParticipant "" zeroTurnSession + 0 := by
  have hIf : containsSubstring (jsLowerChars (String.data ""))
      (jsLowerChars bobParticipant.name.data) = false := by decide
  simp only [calculateRelevanceScore, specRelevanceScore, hIf, Bool.false_eq_true,
    if_false, zeroTurnSession, bobParticipant, List.map_cons, List.map_nil,
    List.foldr_cons, List.foldr_nil]
  norm_num

/-- C2 (amended): the dynamic-strategy score is
`(max(1, maxTurnCountAcrossParticipants) − turnCount) × 10`, plus 50 exactly
when the display name occurs case-insensitively in the message, plus the
jitter; equivalently, whenever some participant has spoken at least once it
equals the claimed formula plus the jitter exactly, so with the jitter fixed to
zero the scored order is fully determined by that formula. -/
theorem dynamic_relevance_score (p : PartyParticipant) (m : String)
    (s : PartySession) (j : ℚ) (h : ∃ q ∈ s.participants, 1 ≤ q.turnCount) :
    calculateRelevanceScore p m s j = specRelevanceScore p m s + j := by
  obtain ⟨q, hq, hq1⟩ := h
  have hmem : q.turnCount ∈ s.participants.map (fun r => r.turnCount) :=
    List.mem_map_of_mem _ hq
  have h1 : 1 ≤ (s.participants.map fun r => r.turnCount).foldr max 0 :=
    le_trans hq1 (le_foldr_max hmem)
  have hfold : (s.participants.map fun r => r.turnCount).foldr max 1
      = (s.participants.map fun r => r.turnCount).foldr max 0 := by
    rw [foldr_max_seed]
    exact Nat.max_eq_right h1
  unfold calculateRelevanceScore specRelevanceScore
  rw [hfold]

/-- Witness for the amended C2 theorem: with `bob` at one turn the code score
equals the claimed formula plus the jitter. -/
theorem dynamic_relevance_score_witness :
    calculateRelevanceScore { bobParticipant with turnCount := 1 } "hello Bob"
        { zeroTurnSession with participants := [{ bobParticipant with turnCount := 1 }] } 2
      = specRelevanceScore { bobParticipant with turnCount := 1 } "hello Bob"
          { zeroTurnSession with participants := [{ bobParticipant with turnCount := 1 }] } + 2 :=
  dynamic_relevance_score { bobParticipant with turnCount := 1 } "hello Bob"
    { zeroTurnSession with participants := [{ bobParticipant with turnCount := 1 }] } 2
    ⟨{ bobParticipant with turnCount := 1 }, by decide, by decide⟩

/-! ### Lemmas about the mention classifier -/

/-- `pushUnique` preserves distinctness. -/
theorem pushUnique_nodup {l : List String} {x : String} (h : l.Nodup) :
    (pushUnique l x).Nodup := by
  unfold pushUnique
  by_cases hc : l.contains x = true
  · rw [if_pos hc]; exact h
  · rw [if_neg hc]
    have hx : x ∉ l := by simpa using hc
    simp [List.nodup_append, h, hx]

/-- Both accumulators of the classifier stay duplicate-free. -/
theorem classifyMentions_nodup (l : List String) (acc : List String × List String)
    (h1 : acc.1.Nodup) (h2 : acc.2.Nodup) :
    (classifyMentions l acc).1.Nodup ∧ (classifyMentions l acc).2.Nodup := by
  induction l generalizing acc with
  | nil => exact ⟨h1, h2⟩
  | cons a t ih =>
    unfold classifyMentions
    by_cases hr : isAgentRegistered a
    · simpa [hr] using ih (pushUnique acc.1 a, acc.2) (pushUnique_nodup h1) h2
    · simpa [hr] using ih (acc.1, pushUnique acc.2 a) h1 (pushUnique_nodup h2)

/-- The JS `length > 0 ? xs[0] : null` idiom is `head?`. -/
theorem first_or_none_eq_head (l : List String) :
    (if 0 < l.length then l[0]? else none) = l.head? := by
  cases l <;> simp

/-- C9: `parseMentions` emits duplicate-free valid and invalid mention lists,
the primary mention is the first valid one (or none), `hasMentions` reflects
non-emptiness of the valid list, and on concrete inputs matching is
case-insensitive, lower-cased, de-duplicated and in first-seen order:
`"@Bob @BOB @bob"` yields `["bob"]` and `"@TEA @bob @Tea"` yields
`["tea", "bob"]` with primary mention `"tea"`. -/
theorem mention_parsing_normalization (m : String) :
    (parseMentions m).validMentions.Nodup
    ∧ (parseMentions m).invalidMentions.Nodup
    ∧ (parseMentions m).primaryMention = (parseMentions m).validMentions.head?
    ∧ (parseMentions m).hasMentions = !(parseMentions m).validMentions.isEmpty
    ∧ (parseMentions "@Bob @BOB @bob").validMentions = ["bob"]
    ∧ (parseMentions "@TEA @bob @Tea").validMentions = ["tea", "bob"]
    ∧ (parseMentions "@TEA @bob @Tea").primaryMention = some "tea" := by
  have hnodup := classifyMentions_nodup
    ((scanMentions m).map fun cs => String.mk (jsLowerChars cs)) ([], [])
    List.nodup_nil List.nodup_nil
  refine ⟨hnodup.1, hnodup.2, ?_, ?_, by decide, by decide, by decide⟩
  · exact first_or_none_eq_head _
  · show decide (0 < (parseMentions m).validMentions.length)
        = !(parseMentions m).validMentions.isEmpty
    cases (parseMentions m).validMentions <;> simp

/-- C4: if the message contains a valid `@mention` of exactly one current
non-moderator participant (and of no other non-moderator participant), the
dynamic strategy returns that participant outright, regardless of every
participant's `turnCount` and of the random jitter. -/
theorem mentions_always_win (s : PartySession) (m : String) (x : PartyParticipant)
    (jitter : String → ℚ)
    (hx : x ∈ s.participants) (hxm : x.isModerator = false)
    (hmem : (parseMentions m).validMentions.contains x.agentId = true)
    (huniq : ∀ y ∈ s.participants, y.isModerator = false →
      (parseMentions m).validMentions.contains y.agentId = true → y.agentId = x.agentId) :
    dynamicGetNextSpeaker s (some m) jitter = some x.agentId := by
  have hmnil : m ≠ "" := by
    intro hm
    subst hm
    have hempty : (parseMentions "").validMentions = [] := rfl
    rw [hempty] at hmem
    simp at hmem
  have hfalsy : jsFalsyOptStr (some m) = false := by
    unfold jsFalsyOptStr
    simpa using hmnil
  have hHas : (parseMentions m).hasMentions = true := by
    have hxin : x.agentId ∈ (parseMentions m).validMentions := by simpa using hmem
    exact decide_eq_true (List.length_pos.mpr (List.ne_nil_of_mem hxin))
  have hxnm : x ∈ s.participants.filter (fun p => !p.isModerator) :=
    List.mem_filter.mpr ⟨hx, by simp [hxm]⟩
  have hsome : ((s.participants.filter fun p => !p.isModerator).find?
      (fun p => (parseMentions m).validMentions.contains p.agentId)).isSome := by
    rw [List.find?_isSome]
    exact ⟨x, hxnm, hmem⟩
  obtain ⟨y, hy⟩ := Option.isSome_iff_exists.mp hsome
  have hyMemFilter := List.mem_of_find?_eq_some hy
  have hyMod : y.isModerator = false := by
    have := (List.mem_filter.mp hyMemFilter).2
    simpa using this
  have hyPred := List.find?_some hy
  have hyEq : y.agentId = x.agentId :=
    huniq y (List.mem_filter.mp hyMemFilter).1 hyMod hyPred
  unfold dynamicGetNextSpeaker
  rw [hfalsy]
  simp only [Bool.false_eq_true, if_false, Option.getD_some, hHas, if_true, hy, hyEq]

/-- Witness for C4: in a session whose non-moderator is `bob`, the message
`"@bob hello"` selects `bob` outright. -/
theorem mentions_always_win_witness :
    dynamicGetNextSpeaker sessionWithBob (some "@bob hello") (fun _ => (0 : ℚ)) = some "bob" :=
  mentions_always_win sessionWithBob "@bob hello" bobParticipant (fun _ => (0 : ℚ))
    (by decide) (by decide) (by decide) (by decide)

/-- Bridge between the speaker-set computed by `shouldModeratorSummarize` and
the existence of an attributed assistant message in the current round (for a
non-empty agent id, as all registry ids are). -/
theorem speakers_contains_iff (s : PartySession) (a : String) (ha : a ≠ "") :
    (((getCurrentTurnMessages s).filter fun msg =>
        msg.role == MessageRole.assistant && jsTruthyOptStr msg.agentId).filterMap
        (fun msg => msg.agentId)).contains a = true
    ↔ ∃ msg ∈ s.history, msg.turnNumber = s.currentTurn
        ∧ msg.role = MessageRole.assistant ∧ msg.agentId = some a := by
  constructor
  · intro h
    have hmem : a ∈ ((getCurrentTurnMessages s).filter fun msg =>
        msg.role == MessageRole.assistant && jsTruthyOptStr msg.agentId).filterMap
        (fun msg => msg.agentId) := by simpa using h
    rw [List.mem_filterMap] at hmem
    obtain ⟨msg, hmsg, hma⟩ := hmem
    rw [List.mem_filter] at hmsg
    obtain ⟨hcur, hcond⟩ := hmsg
    unfold getCurrentTurnMessages at hcur
    rw [List.mem_filter] at hcur
    obtain ⟨hhist, hturn⟩ := hcur
    simp only [Bool.and_eq_true, beq_iff_eq] at hcond
    exact ⟨msg, hhist, by simpa using hturn, hcond.1, hma⟩
  · rintro ⟨msg, hhist, hturn, hrole, hagent⟩
    have hmem : a ∈ ((getCurrentTurnMessages s).filter fun msg =>
        msg.role == MessageRole.assistant && jsTruthyOptStr msg.agentId).filterMap
        (fun msg => msg.agentId) := by
      rw [List.mem_filterMap]
      refine ⟨msg, ?_, hagent⟩
      rw [List.mem_filter]
      refine ⟨?_, ?_⟩
      · unfold getCurrentTurnMessages
        rw [List.mem_filter]
        exact ⟨hhist, by simpa using hturn⟩
      · simp [hrole, hagent, jsTruthyOptStr, ha]
    simpa using hmem

/-- C5: for a session with a moderator (and genuine, non-empty participant
ids), `shouldModeratorSummarize` is true exactly when every non-moderator
participant has an attributed assistant message in the current round and no
current-round message carries the summary flag; and appending a current-round
message flagged as a moderator summary makes it false. -/
theorem moderator_summary_once_per_round (s : PartySession) (msg : NewPartyMessage)
    (messageId : String) (now : Nat)
    (hMod : hasModerator s = true)
    (hNE : ∀ p ∈ s.participants, p.agentId ≠ "") :
    (shouldModeratorSummarize s = true ↔
      ((∀ p ∈ s.participants, p.isModerator = false →
          ∃ m ∈ s.history, m.turnNumber = s.currentTurn
            ∧ m.role = MessageRole.assistant ∧ m.agentId = some p.agentId)
        ∧ ∀ m ∈ s.history, m.turnNumber = s.currentTurn →
            metadataSummaryFlag m.metadata = false))
    ∧ (shouldModeratorSummarize s = true → msg.turnNumber = s.currentTurn →
        metadataSummaryFlag msg.metadata = true →
        shouldModeratorSummarize (addMessageToSession s msg messageId now) = false) := by
  constructor
  · unfold shouldModeratorSummarize
    simp only [hMod, Bool.not_true, Bool.false_eq_true, if_false]
    by_cases hAll : ((s.participants.filter fun p => !p.isModerator).any fun p =>
        !(((getCurrentTurnMessages s).filter fun m =>
          m.role == MessageRole.assistant && jsTruthyOptStr m.agentId).filterMap
          (fun m => m.agentId)).contains p.agentId) = true
    · rw [if_pos hAll]
      constructor
      · intro h
        exact absurd h (by simp)
      · rintro ⟨hspoke, _⟩
        exfalso
        rw [List.any_eq_true] at hAll
        obtain ⟨p, hpnm, hnp⟩ := hAll
        rw [List.mem_filter] at hpnm
        have hpm : p.isModerator = false := by simpa using hpnm.2
        have hcontains := (speakers_contains_iff s p.agentId (hNE p hpnm.1)).mpr
          (hspoke p hpnm.1 hpm)
        rw [hcontains] at hnp
        simp at hnp
    · rw [if_neg hAll]
      have hAllMem : ∀ p ∈ s.participants, p.isModerator = false →
          (((getCurrentTurnMessages s).filter fun m =>
            m.role == MessageRole.assistant && jsTruthyOptStr m.agentId).filterMap
            (fun m => m.agentId)).contains p.agentId = true := by
        intro p hp hpm
        by_contra hc
        apply hAll
        rw [List.any_eq_true]
        refine ⟨p, List.mem_filter.mpr ⟨hp, by simp [hpm]⟩, ?_⟩
        simp only [Bool.not_eq_true'] at hc ⊢
        simpa using hc
      constructor
      · intro hsum
        refine ⟨?_, ?_⟩
        · intro p hp hpm
          exact (speakers_contains_iff s p.agentId (hNE p hp)).mp (hAllMem p hp hpm)
        · intro m hm hturn
          have hany : ¬ ((getCurrentTurnMessages s).any fun m =>
              metadataSummaryFlag m.metadata) = true := by
            simpa using hsum
          rw [List.any_eq_true] at hany
          push_neg at hany
          have hmcur : m ∈ getCurrentTurnMessages s := by
            unfold getCurrentTurnMessages
            rw [List.mem_filter]
            exact ⟨hm, by simpa using hturn⟩
          have := hany m hmcur
          simpa using this
      · rintro ⟨_, hnone⟩
        have hany : ((getCurrentTurnMessages s).any fun m =>
            metadataSummaryFlag m.metadata) = false := by
          rw [List.any_eq_false]
          intro m hmcur
          unfold getCurrentTurnMessages at hmcur
          rw [List.mem_filter] at hmcur
          have := hnone m hmcur.1 (by simpa using hmcur.2)
          simp [this]
        simp [hany]
  · intro _ hturn hflag
    unfold shouldModeratorSummarize
    cases hMod' : hasModerator (addMessageToSession s msg messageId now) with
    | false => simp
    | true =>
      simp only [hMod', Bool.not_true, Bool.false_eq_true, if_false]
      have hmemMsg : (⟨messageId, msg.role, msg.content, msg.agentId, now,
            msg.turnNumber, msg.metadata⟩ : PartyMessage)
          ∈ getCurrentTurnMessages (addMessageToSession s msg messageId now) := by
        unfold getCurrentTurnMessages
        rw [List.mem_filter]
        constructor
        · show _ ∈ s.history ++ [_]
          simp
        · show (msg.turnNumber == s.currentTurn) = true
          simpa using hturn
      have hany : ((getCurrentTurnMessages (addMessageToSession s msg messageId now)).any
          fun m => metadataSummaryFlag m.metadata) = true := by
        rw [List.any_eq_true]
        exact ⟨_, hmemMsg, hflag⟩
      by_cases hAll' : (((addMessageToSession s msg messageId now).participants.filter
          fun p => !p.isModerator).any fun p =>
          !(((getCurrentTurnMessages (addMessageToSession s msg messageId now)).filter fun m =>
            m.role == MessageRole.assistant && jsTruthyOptStr m.agentId).filterMap
            (fun m => m.agentId)).contains p.agentId) = true
      · rw [if_pos hAll']
      · rw [if_neg hAll']
        simp [hany]

/-- Fixture: moderated session in which the only non-moderator (`bob`) has
spoken in the current round and no summary has been posted yet. -/
def summaryReadySession : PartySession :=
  addMessageToSession (createSession "u1" ["aurora-forester", "bob"] "t" none "sidC" 0)
    { role := MessageRole.assistant, content := "hi", agentId := some "bob",
      turnNumber := 0, metadata := none } "m1" 1

/-- Fixture: a current-round moderator summary message. -/
def summaryMessage : NewPartyMessage :=
  { role := MessageRole.assistant, content := "summary",
    agentId := some "aurora-forester", turnNumber := 0,
    metadata := some { emptyMetadata with isModeratorSummary := some true } }

/-- Witness for C5: in the fixture session the summary condition holds, and
appending the flagged summary message makes it false. -/
theorem moderator_summary_once_per_round_witness :
    shouldModeratorSummarize summaryReadySession = true
    ∧ shouldModeratorSummarize
        (addMessageToSession summaryReadySession summaryMessage "m2" 2) = false :=
  ⟨by decide,
   (moderator_summary_once_per_round summaryReadySession summaryMessage "m2" 2
      (by decide) (by decide)).2 (by decide) (by decide) (by decide)⟩

/-- C7: the round loop invokes every speaker in order no matter which outcomes
fail — each speaker contributes exactly one response and one appended history
message whose content is the (total) invoke result, the messages appended
before a failure are kept (the prior history is an unchanged prefix), and a
failing invocation records the provider's error text as the message content
instead of raising. -/
theorem provider_failure_never_aborts_round (outcome : String → ProviderOutcome)
    (idGen : Nat → String) (now turnNumber : Nat) (s : PartySession)
    (speakers : List String) (k : Nat) :
    ((runRound outcome idGen now turnNumber s speakers k).2.map fun r => r.agentId) = speakers
    ∧ ((runRound outcome idGen now turnNumber s speakers k).2.map fun r => r.message)
        = speakers.map (fun a => invokeMessage a (outcome a))
    ∧ ((runRound outcome idGen now turnNumber s speakers k).1.history.map
          fun m => (m.agentId, m.content, m.turnNumber))
        = (s.history.map fun m => (m.agentId, m.content, m.turnNumber))
          ++ speakers.map (fun a => (some a, invokeMessage a (outcome a), turnNumber))
    ∧ (∀ a e, outcome a = ProviderOutcome.failure e →
        invokeMessage a (outcome a) = "Error invoking agent: " ++ e) := by
  refine ⟨?_, ?_, ?_, ?_⟩
  · induction speakers generalizing s k with
    | nil => rfl
    | cons a rest ih => simpa [runRound] using ih _ _
  · induction speakers generalizing s k with
    | nil => rfl
    | cons a rest ih => simpa [runRound] using ih _ _
  · induction speakers generalizing s k with
    | nil => simp [runRound]
    | cons a rest ih =>
      simp only [runRound]
      rw [ih]
      simp [addMessageToSession]
  · intro a e h
    rw [h]
    rfl

/-- Fixture: a provider that fails for `bob` and succeeds for everyone else. -/
def failingOutcome : String → ProviderOutcome :=
  fun a => if a == "bob" then ProviderOutcome.failure "boom" else ProviderOutcome.success "ok"

/-- Witness for C7: with `bob` failing mid-round, all three speakers still
produce responses, `bob`'s carries the provider error text, and the messages of
the whole round are appended in order after the pre-existing history. -/
theorem provider_failure_never_aborts_round_witness :
    ((runRound failingOutcome (fun _ => "m") 7 1 summaryReadySession
        ["tea", "bob", "mary"] 0).2.map fun r => r.message)
      = ["ok", "Error invoking agent: boom", "ok"]
    ∧ ((runRound failingOutcome (fun _ => "m") 7 1 summaryReadySession
        ["tea", "bob", "mary"] 0).1.history.map fun m => (m.agentId, m.content, m.turnNumber))
      = (summaryReadySession.history.map fun m => (m.agentId, m.content, m.turnNumber))
        ++ [(some "tea", "ok", 1), (some "bob", "Error invoking agent: boom", 1),
            (some "mary", "ok", 1)]
    ∧ invokeMessage "bob" (failingOutcome "bob") = "Error invoking agent: boom" := by
  refine ⟨?_, ?_, ?_⟩
  · rw [(provider_failure_never_aborts_round failingOutcome (fun _ => "m") 7 1
      summaryReadySession ["tea", "bob", "mary"] 0).2.1]
    decide
  · rw [(provider_failure_never_aborts_round failingOutcome (fun _ => "m") 7 1
      summaryReadySession ["tea", "bob", "mary"] 0).2.2.1]
    decide
  · exact (provider_failure_never_aborts_round failingOutcome (fun _ => "m") 7 1
      summaryReadySession ["tea", "bob", "mary"] 0).2.2.2 "bob" "boom" (by decide)
